import Mathlib

/-!
Verification development for the m3u-unpacker repository (src/main.py).

Strings are modelled as lists of characters.  Each definition below is a
shallow embedding of the corresponding Python function or code block in
src/main.py; file-system side effects (directory creation, file writes)
are modelled by recording the (path, content) pairs the program would
write, and the fallibility of a file write is modelled by a boolean
oracle on paths (the try/except OSError around each write).
-/

namespace M3U

/-- Characters of the regex character class matched in safe_name
(backslash, slash, star, question mark, colon, double quote, less-than,
greater-than, pipe). -/
def ILLEGAL_CHARS : List Char := ['\\', '/', '*', '?', ':', '"', '<', '>', '|']

/-- Test for the illegal path characters replaced in safe_name. -/
def isIllegalPathChar (c : Char) : Bool := decide (c ∈ ILLEGAL_CHARS)

/-- The set of characters Python treats as whitespace in text strings:
this is both the class matched by a whitespace pattern escape and the set
stripped by str.strip / str.rstrip. -/
def PY_WHITESPACE : List Char :=
  [' ', '\t', '\n', '\r', '\x0b', '\x0c', '\x1c', '\x1d', '\x1e', '\x1f',
   '\x85', ' ', ' ', ' ', ' ', ' ', ' ',
   ' ', ' ', ' ', ' ', ' ', ' ', ' ',
   ' ', ' ', ' ', ' ', '　']

/-- Python whitespace test. -/
def pySpace (c : Char) : Bool := decide (c ∈ PY_WHITESPACE)

/-- Python str.lstrip with no argument: drop leading whitespace. -/
def lstrip (l : List Char) : List Char := l.dropWhile pySpace

/-- Python str.rstrip with no argument: drop trailing whitespace. -/
def rstrip (l : List Char) : List Char := (l.reverse.dropWhile pySpace).reverse

/-- Python str.strip with no argument: drop leading and trailing whitespace. -/
def pstrip (l : List Char) : List Char := rstrip (lstrip l)

/-- Replace each maximal run of whitespace by a single space; the flag
records whether we are currently inside a whitespace run.  This is the
substitution of one-or-more whitespace by a space performed in safe_name. -/
def collapseWsAux : Bool → List Char → List Char
  | _, [] => []
  | inRun, c :: cs =>
    if pySpace c then
      if inRun then collapseWsAux true cs else ' ' :: collapseWsAux true cs
    else c :: collapseWsAux false cs

/-- Replace each maximal whitespace run by a single space (the whitespace
collapsing substitution in safe_name). -/
def collapseWs (l : List Char) : List Char := collapseWsAux false l

/-- Embedding of safe_name from src/main.py: replace non-breaking spaces
by spaces, replace illegal path characters by underscore, collapse
whitespace runs to single spaces and strip, and fall back to the literal
string "unknown" when the result is empty. -/
def safe_name (s : List Char) : List Char :=
  let s1 := s.map (fun c => if c = ' ' then ' ' else c)
  let s2 := s1.map (fun c => if isIllegalPathChar c then '_' else c)
  let s3 := pstrip (collapseWs s2)
  if s3.isEmpty then "unknown".toList else s3

/-- Folder name length budget from src/main.py. -/
def MAX_FOLDER_CHARS : Nat := 80

/-- File basename length budget (before the extension) from src/main.py. -/
def MAX_FILE_BASENAME_CHARS : Nat := 120

/-- Embedding of truncate_with_ellipsis from src/main.py: when the stem
is longer than the limit, keep the first max 1 (limit - 3) characters,
strip trailing whitespace, and append three dots; otherwise return the
stem unchanged. -/
def truncate_with_ellipsis (stem : List Char) (limit : Nat) : List Char :=
  if stem.length > limit then rstrip (stem.take (max 1 (limit - 3))) ++ "...".toList
  else stem

/- ### Helper lemmas about membership in the sanitizer pipeline -/

theorem mem_of_mem_lstrip {c : Char} {l : List Char} (h : c ∈ lstrip l) : c ∈ l :=
  (List.dropWhile_sublist pySpace).subset h

theorem mem_of_mem_rstrip {c : Char} {l : List Char} (h : c ∈ rstrip l) : c ∈ l := by
  unfold rstrip at h
  rw [List.mem_reverse] at h
  have := (List.dropWhile_sublist pySpace).subset h
  rwa [List.mem_reverse] at this

theorem mem_of_mem_pstrip {c : Char} {l : List Char} (h : c ∈ pstrip l) : c ∈ l :=
  mem_of_mem_lstrip (mem_of_mem_rstrip h)

theorem mem_of_mem_collapseWsAux {c : Char} :
    ∀ (l : List Char) (b : Bool), c ∈ collapseWsAux b l → c = ' ' ∨ c ∈ l := by
  intro l
  induction l with
  | nil => intro b h; simp [collapseWsAux] at h
  | cons d rest ih =>
    intro b h
    by_cases hd : pySpace d
    · by_cases hb : b = true
      · subst hb
        simp [collapseWsAux, hd] at h
        rcases ih true h with h' | h'
        · exact Or.inl h'
        · exact Or.inr (List.mem_cons_of_mem _ h')
      · rw [Bool.not_eq_true] at hb; subst hb
        simp [collapseWsAux, hd] at h
        rcases h with h | h
        · exact Or.inl h
        · rcases ih true h with h' | h'
          · exact Or.inl h'
          · exact Or.inr (List.mem_cons_of_mem _ h')
    · simp [collapseWsAux, hd] at h
      rcases h with h | h
      · exact Or.inr (h ▸ List.mem_cons_self d rest)
      · rcases ih false h with h' | h'
        · exact Or.inl h'
        · exact Or.inr (List.mem_cons_of_mem _ h')

theorem mem_of_mem_collapseWs {c : Char} {l : List Char} (h : c ∈ collapseWs l) :
    c = ' ' ∨ c ∈ l :=
  mem_of_mem_collapseWsAux l false h

/-- A Python whitespace character is never one of the illegal path characters. -/
theorem pySpace_not_illegal {c : Char} (h : pySpace c = true) :
    isIllegalPathChar c = false := by
  unfold pySpace at h
  rw [decide_eq_true_eq] at h
  fin_cases h <;> decide

/-- Whitespace-only input collapses and strips to the empty list. -/
theorem pstrip_collapseWs_of_all_space {l : List Char}
    (h : ∀ c ∈ l, pySpace c = true) : pstrip (collapseWs l) = [] := by
  have hall : ∀ c ∈ collapseWs l, pySpace c = true := by
    intro c hc
    rcases mem_of_mem_collapseWs hc with rfl | hc'
    · decide
    · exact h c hc'
  unfold pstrip lstrip
  rw [List.dropWhile_eq_nil_iff.mpr hall]
  rfl

/-- C1.  For every input string, safe_name returns a string containing
none of the illegal path characters (backslash, slash, star, question
mark, colon, double quote, less-than, greater-than, pipe) and no
non-breaking space; and on an empty or whitespace-only input it returns
exactly the string "unknown". -/
theorem safe_name_spec (s : List Char) :
    (∀ c ∈ safe_name s, isIllegalPathChar c = false ∧ c ≠ ' ')
    ∧ (s.all pySpace = true → safe_name s = "unknown".toList) := by
  constructor
  · intro c hc
    simp only [safe_name] at hc
    split at hc
    · revert c
      decide
    · have h2 := mem_of_mem_pstrip hc
      rcases mem_of_mem_collapseWs h2 with rfl | h3
      · decide
      · rw [List.mem_map] at h3
        obtain ⟨a, ha, hfa⟩ := h3
        by_cases hill : isIllegalPathChar a = true
        · rw [if_pos hill] at hfa
          subst hfa; decide
        · rw [Bool.not_eq_true] at hill
          rw [if_neg (by simp [hill])] at hfa
          subst hfa
          refine ⟨hill, ?_⟩
          rw [List.mem_map] at ha
          obtain ⟨b, _, hfb⟩ := ha
          by_cases hb : b = ' '
          · rw [if_pos hb] at hfb; subst hfb; decide
          · rw [if_neg hb] at hfb; subst hfb; exact hb
  · intro hall
    have h0 := List.all_eq_true.mp hall
    simp only [safe_name]
    rw [pstrip_collapseWs_of_all_space]
    · rfl
    · intro c hc
      rw [List.mem_map] at hc
      obtain ⟨a, ha, hfa⟩ := hc
      rw [List.mem_map] at ha
      obtain ⟨b, hb, hfb⟩ := ha
      have hbs := h0 b hb
      have has : pySpace a = true := by
        by_cases hnb : b = ' '
        · rw [if_pos hnb] at hfb; subst hfb; decide
        · rw [if_neg hnb] at hfb; subst hfb; exact hbs
      have : isIllegalPathChar a = false := pySpace_not_illegal has
      rw [if_neg (by simp [this])] at hfa
      subst hfa; exact has

/-- Witness for C1: a whitespace-only input yields "unknown". -/
theorem safe_name_spec_witness : safe_name " \t ".toList = "unknown".toList :=
  (safe_name_spec " \t ".toList).2 (by decide)

/-- The rstrip of a list is no longer than the list. -/
theorem rstrip_length_le (l : List Char) : (rstrip l).length ≤ l.length := by
  unfold rstrip
  rw [List.length_reverse]
  calc (l.reverse.dropWhile pySpace).length ≤ l.reverse.length :=
        (List.dropWhile_sublist pySpace).length_le
    _ = l.length := List.length_reverse l

/-- C2 (amended).  Strings at or under the budget are returned unchanged;
for a string strictly longer than a budget of at least 4 the result ends
with three dots and has length at most the budget, with length exactly
the budget when the kept prefix carries no trailing whitespace. -/
theorem truncate_with_ellipsis_spec (stem : List Char) (limit : Nat) :
    (stem.length ≤ limit → truncate_with_ellipsis stem limit = stem)
    ∧ (4 ≤ limit → limit < stem.length →
        (truncate_with_ellipsis stem limit).length ≤ limit
        ∧ "...".toList <:+ truncate_with_ellipsis stem limit
        ∧ (rstrip (stem.take (limit - 3)) = stem.take (limit - 3) →
            (truncate_with_ellipsis stem limit).length = limit)) := by
  constructor
  · intro h
    unfold truncate_with_ellipsis
    rw [if_neg (by omega)]
  · intro h4 hlen
    have hmax : max 1 (limit - 3) = limit - 3 := by omega
    have htake : (stem.take (limit - 3)).length = limit - 3 := by
      rw [List.length_take]; omega
    unfold truncate_with_ellipsis
    rw [if_pos (by omega), hmax]
    have h3 : ("...".toList).length = 3 := by decide
    refine ⟨?_, ⟨rstrip (stem.take (limit - 3)), rfl⟩, ?_⟩
    · rw [List.length_append, h3]
      have := (rstrip_length_le (stem.take (limit - 3))).trans (le_of_eq htake)
      omega
    · intro heq
      rw [heq, List.length_append, htake, h3]
      omega

/-- Witness for C2: a short stem is unchanged; a clean long stem is cut
to exactly the budget. -/
theorem truncate_with_ellipsis_spec_witness :
    truncate_with_ellipsis "abc".toList 5 = "abc".toList
    ∧ (truncate_with_ellipsis "abcdefgh".toList 6).length = 6 :=
  ⟨(truncate_with_ellipsis_spec "abc".toList 5).1 (by decide),
   ((truncate_with_ellipsis_spec "abcdefgh".toList 6).2 (by decide) (by decide)).2.2
     (by decide)⟩

/-- Counterexample for C2 as stated: the input has length 7, strictly
over the budget 6, but because the kept prefix ends in a space that is
stripped before the dots are appended, the output length is 5, not 6. -/
theorem truncate_with_ellipsis_counterexample :
    (6 < ("ab cdef".toList).length
      ∧ (truncate_with_ellipsis "ab cdef".toList 6).length ≠ 6)
    ∧ (3 < ("abcde".toList).length
      ∧ (truncate_with_ellipsis "abcde".toList 3).length ≠ 3) := by
  decide

/- ### Path builders -/

/-- Decimal rendering of a number, as produced by Python string formatting. -/
def natStr (n : Nat) : List Char := (Nat.repr n).toList

/-- POSIX os.path.join for a relative second component: join with a slash. -/
def pathJoin (a b : List Char) : List Char := a ++ '/' :: b

/-- Embedding of build_channel_output_path from src/main.py: all
occurrences go into base/iptv/folder, where folder is the truncated
channel stem, and the file stem carries a numeric suffix from the second
occurrence on.  Directory creation is a side effect not modelled here. -/
def build_channel_output_path (base_dir channel_stem : List Char) (seq : Nat) :
    List Char :=
  let folder := truncate_with_ellipsis channel_stem MAX_FOLDER_CHARS
  let subdir := pathJoin (pathJoin base_dir "iptv".toList) folder
  let file_stem0 := if seq > 1 then channel_stem ++ '_' :: natStr seq else channel_stem
  let file_stem := truncate_with_ellipsis file_stem0 MAX_FILE_BASENAME_CHARS
  pathJoin subdir (file_stem ++ ".m3u".toList)

/-- Embedding of build_keyword_output_path from src/main.py: the keyword
aggregate file lives directly under the base directory. -/
def build_keyword_output_path (base_dir keyword : List Char) : List Char :=
  pathJoin base_dir
    (truncate_with_ellipsis (safe_name keyword) MAX_FILE_BASENAME_CHARS
      ++ ".m3u".toList)

/- ### The scanner of main() -/

/-- Python lowercasing of a string (ASCII letters, as used by the
case-insensitive keyword matching in main). -/
def toLowerStr (l : List Char) : List Char := l.map Char.toLower

/-- Python substring membership test (the in operator on strings). -/
def isSubstring (needle : List Char) : List Char → Bool
  | [] => needle.isEmpty
  | c :: rest => needle.isPrefixOf (c :: rest) || isSubstring needle rest

/-- Text after the first comma of a line, as extracted by splitting on
the first comma and keeping the second part. -/
def afterFirstComma (l : List Char) : List Char :=
  (l.dropWhile (fun c => c ≠ ',')).tail

/-- Warning message recorded when a completed entry has no usable
channel name (references the offending resource line). -/
def skipUnknownWarning (line : List Char) : List Char :=
  "Skipping unknown channel for URL: ".toList ++ line

/-- Warning message recorded when a per-entry file write fails. -/
def writeFailWarning (path : List Char) : List Char :=
  "Failed to write ".toList ++ path

/-- State of the scanning loop in main: the per-name occurrence counts
(a total function, zero by default, as a defaultdict of ints), the
pending channel name, the block under construction, the per-entry file
writes performed so far, the keyword aggregation store (a total function
from lowercased keyword to its buffered blocks, empty by default), and
the warnings emitted so far. -/
structure ScanState where
  name_counts : List Char → Nat
  channel_name : Option (List Char)
  current_block : List (List Char)
  writes : List (List Char × List (List Char))
  keyword_blocks : List Char → List (List (List Char))
  warnings : List (List Char)

/-- Appending one block to the aggregate stored under one key (the dict
entry append performed for a matching keyword). -/
def kbUpdate (kbs : List Char → List (List (List Char))) (key : List Char)
    (block : List (List Char)) : List Char → List (List (List Char)) :=
  fun k => if k = key then kbs k ++ [block] else kbs k

/-- The keyword collection loop of main: for each keyword whose
lowercased form is a substring of the lowercased channel name, append a
copy of the completed block to that keyword's aggregate. -/
def collectKeywords (lower_name : List Char) (block : List (List Char)) :
    List (List Char) → (List Char → List (List (List Char)))
      → (List Char → List (List (List Char)))
  | [], kbs => kbs
  | kw :: rest, kbs =>
    collectKeywords lower_name block rest
      (if isSubstring (toLowerStr kw) lower_name then
        kbUpdate kbs (toLowerStr kw) block
      else kbs)

/-- One iteration of the scanning loop of main over a single input line.
The writeOk oracle models the try/except OSError around the per-entry
file write: when it reports false for the output path, the write is not
recorded and a warning is recorded instead, and processing continues
exactly as in the source (the occurrence count was already incremented
and the keyword collection still runs). -/
def scanLine (writeOk : List Char → Bool) (keywords : List (List Char))
    (base_dir : List Char) (st : ScanState) (line : List Char) : ScanState :=
  if "#EXTINF".toList.isPrefixOf line then
    { st with
      current_block := [line],
      channel_name :=
        some (if ',' ∈ line then safe_name (afterFirstComma line)
              else "unknown".toList) }
  else if (pstrip line).isEmpty = false ∧ "#".toList.isPrefixOf line = false then
    let block := st.current_block ++ [line]
    let st' :=
      match st.channel_name with
      | some nm =>
        if nm ≠ "unknown".toList then
          let seq := st.name_counts nm + 1
          let out_path := build_channel_output_path base_dir nm seq
          let st1 : ScanState :=
            { st with
              name_counts := fun n => if n = nm then seq else st.name_counts n,
              writes :=
                if writeOk out_path then st.writes ++ [(out_path, block)]
                else st.writes,
              warnings :=
                if writeOk out_path then st.warnings
                else st.warnings ++ [writeFailWarning out_path] }
          if keywords.isEmpty then st1
          else
            { st1 with
              keyword_blocks :=
                collectKeywords (toLowerStr nm) block keywords st1.keyword_blocks }
        else { st with warnings := st.warnings ++ [skipUnknownWarning line] }
      | none => { st with warnings := st.warnings ++ [skipUnknownWarning line] }
    { st' with current_block := [], channel_name := none }
  else st

/-- The initial state of the scanning loop: no counts, no pending entry,
nothing written, all aggregates empty. -/
def initState : ScanState :=
  { name_counts := fun _ => 0
    channel_name := none
    current_block := []
    writes := []
    keyword_blocks := fun _ => []
    warnings := [] }

/-- The whole scanning loop of main over the input lines. -/
def scanLines (writeOk : List Char → Bool) (keywords : List (List Char))
    (base_dir : List Char) (lines : List (List Char)) : ScanState :=
  lines.foldl (scanLine writeOk keywords base_dir) initState

/-- The oracle under which every file write succeeds (normal operation). -/
def allWritesOk : List Char → Bool := fun _ => true

/-- The keyword list preparation in main: strip each raw keyword, drop
empty ones, and de-duplicate case-insensitively while preserving order
and the first-seen original casing.  The first component of the
accumulator is the set of lowercased keywords already seen. -/
def processKeywords (raw : List (List Char)) : List (List Char) :=
  (raw.foldl
    (fun (acc : List (List Char) × List (List Char)) k =>
      let kn := pstrip k
      if kn.isEmpty then acc
      else if toLowerStr kn ∈ acc.1 then acc
      else (acc.1 ++ [toLowerStr kn], acc.2 ++ [kn]))
    ([], [])).2

/-- Content of one aggregate file: the playlist header line, then each
buffered block with its lines joined by newlines and a trailing newline. -/
def aggregateContent (blocks : List (List (List Char))) : List Char :=
  "#EXTM3U\n".toList
    ++ (blocks.map (fun b => List.intercalate ['\n'] b ++ ['\n'])).flatten

/-- The aggregate flush loop at the end of main: one file per keyword
whose aggregate is non-empty, skipping keywords with no matches. -/
def flushKeywords (base_dir : List Char) (kbs : List Char → List (List (List Char))) :
    List (List Char) → List (List Char × List Char)
  | [] => []
  | kw :: rest =>
    let blocks := kbs (toLowerStr kw)
    if blocks.isEmpty then flushKeywords base_dir kbs rest
    else (build_keyword_output_path base_dir kw, aggregateContent blocks)
      :: flushKeywords base_dir kbs rest

/- ### Helper facts about line classification -/

/-- A line that does not start with a hash cannot start with the
metadata marker. -/
theorem extinf_not_hash {line : List Char}
    (h : "#".toList.isPrefixOf line = false) :
    "#EXTINF".toList.isPrefixOf line = false := by
  rw [Bool.eq_false_iff] at h ⊢
  intro hx
  apply h
  rw [ List.isPrefixOf_iff_prefix] at hx ⊢
  exact List.IsPrefix.trans ⟨"EXTINF".toList, rfl⟩ hx

/- ### C3: duplicate channel names get sequence-numbered files -/

/-- Input lines of the duplicate-name scenario. -/
def linesC3 : List (List Char) :=
  ["#EXTINF:-1,Channel One".toList, "http://x/1".toList,
   "#EXTINF:-1,Channel One".toList, "http://x/2".toList]

/-- C3.  On the four-line input with two entries both named Channel One,
the scan performs exactly two per-entry writes, the first at
out/iptv/Channel One/Channel One.m3u and the second at
out/iptv/Channel One/Channel One_2.m3u (same folder, numeric suffix
exactly from the second occurrence on), and the occurrence counter for
Channel One ends at 2. -/
theorem duplicate_names_sequenced :
    (scanLines allWritesOk [] "out".toList linesC3).writes =
      [("out/iptv/Channel One/Channel One.m3u".toList,
        ["#EXTINF:-1,Channel One".toList, "http://x/1".toList]),
       ("out/iptv/Channel One/Channel One_2.m3u".toList,
        ["#EXTINF:-1,Channel One".toList, "http://x/2".toList])]
    ∧ (scanLines allWritesOk [] "out".toList linesC3).name_counts
        "Channel One".toList = 2 := by
  decide

/- ### C4: entries without a usable name are skipped with a warning -/

/-- C4.  A metadata line with no comma yields the channel name unknown,
and completing an entry whose channel name is unknown records no
per-entry write, leaves every keyword aggregate unchanged, and appends a
warning referencing the resource line. -/
theorem unknown_entry_skipped (writeOk : List Char → Bool)
    (keywords : List (List Char)) (base_dir : List Char) (st : ScanState)
    (line line2 : List Char) :
    ("#EXTINF".toList.isPrefixOf line = true → ',' ∉ line →
      (scanLine writeOk keywords base_dir st line).channel_name
        = some "unknown".toList)
    ∧ (st.channel_name = some "unknown".toList →
        (pstrip line2).isEmpty = false → "#".toList.isPrefixOf line2 = false →
        (scanLine writeOk keywords base_dir st line2).writes = st.writes
        ∧ (scanLine writeOk keywords base_dir st line2).keyword_blocks
            = st.keyword_blocks
        ∧ (scanLine writeOk keywords base_dir st line2).warnings
            = st.warnings ++ [skipUnknownWarning line2]) := by
  constructor
  · intro h1 h2
    unfold scanLine
    rw [if_pos h1, if_neg h2]
  · intro hname h2 h3
    unfold scanLine
    rw [if_neg (fun hx => Bool.false_ne_true ((extinf_not_hash h3) ▸ hx)),
      if_pos ⟨h2, h3⟩, hname]
    exact ⟨rfl, rfl, rfl⟩

/-- Witness for C4 at the concrete metadata line with no comma and the
concrete resource line of the scenario. -/
theorem unknown_entry_skipped_witness :
    (scanLine allWritesOk [] "out".toList initState
        "#EXTINF:-1".toList).channel_name = some "unknown".toList
    ∧ (scanLine allWritesOk [] "out".toList
          (scanLine allWritesOk [] "out".toList initState "#EXTINF:-1".toList)
          "http://x/1".toList).writes
        = (scanLine allWritesOk [] "out".toList initState
            "#EXTINF:-1".toList).writes
    ∧ (scanLine allWritesOk [] "out".toList
          (scanLine allWritesOk [] "out".toList initState "#EXTINF:-1".toList)
          "http://x/1".toList).warnings
        = (scanLine allWritesOk [] "out".toList initState
            "#EXTINF:-1".toList).warnings
          ++ [skipUnknownWarning "http://x/1".toList] :=
  ⟨(unknown_entry_skipped allWritesOk [] "out".toList initState
      "#EXTINF:-1".toList "x".toList).1 (by decide) (by decide),
   ((unknown_entry_skipped allWritesOk [] "out".toList
      (scanLine allWritesOk [] "out".toList initState "#EXTINF:-1".toList)
      "x".toList "http://x/1".toList).2 (by decide) (by decide) (by decide)).1,
   ((unknown_entry_skipped allWritesOk [] "out".toList
      (scanLine allWritesOk [] "out".toList initState "#EXTINF:-1".toList)
      "x".toList "http://x/1".toList).2 (by decide) (by decide) (by decide)).2.2⟩

/- ### C5: keyword matching is substring-based, not whole-word -/

/-- Input lines of the keyword-matching scenario. -/
def linesC5 : List (List Char) :=
  ["#EXTINF:-1,Sports HD".toList, "http://s/1".toList,
   "#EXTINF:-1,CHDX News".toList, "http://s/2".toList]

/-- Counterexample for C5 as stated: with keyword HD, the CHDX News
entry is also appended to the hd aggregate, because the code matches the
lowercased keyword as a plain substring of the lowercased channel name
and hd occurs inside chdx; so it is false that only the Sports HD entry
is appended. -/
theorem whole_word_counterexample :
    ["#EXTINF:-1,CHDX News".toList, "http://s/2".toList]
      ∈ (scanLines allWritesOk (processKeywords ["HD".toList]) "out".toList
          linesC5).keyword_blocks "hd".toList := by
  decide

/-- C5 (amended).  The code implements only case-insensitive substring
matching (no whole-word mode exists): given keyword HD and channel names
Sports HD and CHDX News, both entries are appended, in scan order, to
the hd aggregate. -/
theorem substring_match_appends_both :
    (scanLines allWritesOk (processKeywords ["HD".toList]) "out".toList
        linesC5).keyword_blocks "hd".toList
      = [["#EXTINF:-1,Sports HD".toList, "http://s/1".toList],
         ["#EXTINF:-1,CHDX News".toList, "http://s/2".toList]] := by
  decide

/- ### Helper lemmas about the scanner branches -/

/-- Pushing the projection through the conditional guard on an empty
keyword list in the write branch of the scanner. -/
theorem ite_state_keyword_blocks (c : Prop) [Decidable c] (st1 : ScanState)
    (f : List Char → List (List (List Char))) :
    (if c then st1 else { st1 with keyword_blocks := f })
      = { st1 with keyword_blocks := if c then st1.keyword_blocks else f } := by
  split <;> rfl

/-- The key just updated holds the old list with the block appended. -/
theorem kbUpdate_self (kbs : List Char → List (List (List Char)))
    (key : List Char) (block : List (List Char)) :
    kbUpdate kbs key block key = kbs key ++ [block] := by
  unfold kbUpdate
  rw [if_pos rfl]

/-- Every other key is untouched by the update. -/
theorem kbUpdate_ne (kbs : List Char → List (List (List Char)))
    (key k : List Char) (block : List (List Char)) (h : k ≠ key) :
    kbUpdate kbs key block k = kbs k := by
  unfold kbUpdate
  rw [if_neg h]

/-- The collection loop leaves alone every key that is not the
lowercasing of one of the keywords. -/
theorem collectKeywords_apply_notMem (lower_name : List Char)
    (block : List (List Char)) :
    ∀ (ks : List (List Char)) (kbs : List Char → List (List (List Char)))
      (k : List Char), k ∉ ks.map toLowerStr →
      collectKeywords lower_name block ks kbs k = kbs k := by
  intro ks
  induction ks with
  | nil => intro kbs k _; rfl
  | cons k0 rest ih =>
    intro kbs k hk
    rw [List.map_cons, List.mem_cons] at hk
    push_neg at hk
    show collectKeywords lower_name block rest
      (if isSubstring (toLowerStr k0) lower_name then
        kbUpdate kbs (toLowerStr k0) block else kbs) k = kbs k
    rw [ih _ k hk.2]
    by_cases hs : isSubstring (toLowerStr k0) lower_name = true
    · rw [if_pos hs, kbUpdate_ne _ _ _ _ hk.1]
    · rw [if_neg hs]

/-- Value of the collection loop at the lowercasing of a listed keyword:
the block is appended exactly when the lowercased keyword is a substring
of the lowercased channel name (assuming the lowercased keywords are
pairwise distinct, which the keyword preparation guarantees). -/
theorem collectKeywords_apply (lower_name : List Char) (block : List (List Char)) :
    ∀ (ks : List (List Char)) (kbs : List Char → List (List (List Char)))
      (kw : List Char), kw ∈ ks → (ks.map toLowerStr).Nodup →
      collectKeywords lower_name block ks kbs (toLowerStr kw)
        = if isSubstring (toLowerStr kw) lower_name = true
          then kbs (toLowerStr kw) ++ [block]
          else kbs (toLowerStr kw) := by
  intro ks
  induction ks with
  | nil => intro kbs kw hkw; exact absurd hkw (List.not_mem_nil kw)
  | cons k0 rest ih =>
    intro kbs kw hkw hnd
    rw [List.map_cons, List.nodup_cons] at hnd
    obtain ⟨hk0, hndr⟩ := hnd
    show collectKeywords lower_name block rest
      (if isSubstring (toLowerStr k0) lower_name then
        kbUpdate kbs (toLowerStr k0) block else kbs) (toLowerStr kw) = _
    rcases List.mem_cons.mp hkw with rfl | hkwr
    · rw [collectKeywords_apply_notMem lower_name block rest _ _ hk0]
      by_cases hs : isSubstring (toLowerStr kw) lower_name = true
      · rw [if_pos hs, if_pos hs, kbUpdate_self]
      · rw [if_neg hs, if_neg hs]
    · have hne : toLowerStr kw ≠ toLowerStr k0 := by
        intro he
        exact hk0 (he ▸ List.mem_map_of_mem toLowerStr hkwr)
      rw [ih _ kw hkwr hndr]
      by_cases hs0 : isSubstring (toLowerStr k0) lower_name = true
      · rw [if_pos hs0, kbUpdate_ne _ _ _ _ hne]
      · rw [if_neg hs0]

/-- A nonempty list has isEmpty false. -/
theorem isEmpty_false_of_mem {α : Type} {x : α} {l : List α} (h : x ∈ l) :
    l.isEmpty = false := by
  cases l with
  | nil => exact absurd h (List.not_mem_nil x)
  | cons a as => rfl

/- ### C6: per-entry write and aggregate-append invariant -/

/-- C6.  Completing an entry whose channel name is not unknown records
exactly one new per-entry write (at the path built from the bumped
occurrence count, with the block being the metadata line collected so
far plus this resource line), and for every configured keyword the
block is appended to that keyword's aggregate exactly when the
lowercased keyword is a substring of the lowercased channel name; the
appends for distinct keywords are independent. -/
theorem scan_write_invariant (keywords : List (List Char))
    (base_dir : List Char) (st : ScanState) (line nm : List Char)
    (hname : st.channel_name = some nm) (hnm : nm ≠ "unknown".toList)
    (h2 : (pstrip line).isEmpty = false)
    (h3 : "#".toList.isPrefixOf line = false)
    (hnd : (keywords.map toLowerStr).Nodup) :
    (scanLine allWritesOk keywords base_dir st line).writes
      = st.writes ++ [(build_channel_output_path base_dir nm
          (st.name_counts nm + 1), st.current_block ++ [line])]
    ∧ ∀ kw ∈ keywords,
        (scanLine allWritesOk keywords base_dir st line).keyword_blocks
            (toLowerStr kw)
          = if isSubstring (toLowerStr kw) (toLowerStr nm) = true
            then st.keyword_blocks (toLowerStr kw) ++ [st.current_block ++ [line]]
            else st.keyword_blocks (toLowerStr kw) := by
  unfold scanLine
  rw [if_neg (fun hx => Bool.false_ne_true ((extinf_not_hash h3) ▸ hx)),
    if_pos ⟨h2, h3⟩, hname]
  dsimp only
  rw [if_pos hnm, ite_state_keyword_blocks]
  constructor
  · rfl
  · intro kw hkw
    show (if (keywords.isEmpty : Bool) = true then st.keyword_blocks
      else collectKeywords (toLowerStr nm) (st.current_block ++ [line]) keywords
        st.keyword_blocks) (toLowerStr kw) = _
    rw [if_neg (by rw [isEmpty_false_of_mem hkw]; exact Bool.false_ne_true)]
    exact collectKeywords_apply (toLowerStr nm) (st.current_block ++ [line])
      keywords st.keyword_blocks kw hkw hnd

/-- Concrete state used by the invariant witnesses: an entry named
Sports HD is pending, its metadata line already collected. -/
def stW : ScanState :=
  { initState with
    channel_name := some "Sports HD".toList
    current_block := ["#EXTINF:-1,Sports HD".toList] }

/-- Witness for C6: completing the pending Sports HD entry with keywords
HD and News records exactly the one expected write, and the hd aggregate
receives the block (the keyword matches). -/
theorem scan_write_invariant_witness :
    (scanLine allWritesOk ["HD".toList, "News".toList] "out".toList stW
        "http://s/1".toList).writes
      = stW.writes ++ [(build_channel_output_path "out".toList
          "Sports HD".toList (stW.name_counts "Sports HD".toList + 1),
          stW.current_block ++ ["http://s/1".toList])]
    ∧ (scanLine allWritesOk ["HD".toList, "News".toList] "out".toList stW
        "http://s/1".toList).keyword_blocks (toLowerStr "HD".toList)
      = if isSubstring (toLowerStr "HD".toList)
            (toLowerStr "Sports HD".toList) = true
        then stW.keyword_blocks (toLowerStr "HD".toList)
          ++ [stW.current_block ++ ["http://s/1".toList]]
        else stW.keyword_blocks (toLowerStr "HD".toList) :=
  ⟨(scan_write_invariant ["HD".toList, "News".toList] "out".toList stW
      "http://s/1".toList "Sports HD".toList rfl (by decide) (by decide)
      (by decide) (by decide)).1,
   (scan_write_invariant ["HD".toList, "News".toList] "out".toList stW
      "http://s/1".toList "Sports HD".toList rfl (by decide) (by decide)
      (by decide) (by decide)).2 "HD".toList (by decide)⟩

/-- Shape of the writes after one scanner step: either unchanged, or
extended by exactly one write at the path built from the pending name
and its bumped occurrence count, with the block closed by this line. -/
theorem scanLine_writes_shape (writeOk : List Char → Bool)
    (keywords : List (List Char)) (base_dir : List Char) (st : ScanState)
    (line : List Char) :
    (scanLine writeOk keywords base_dir st line).writes = st.writes
    ∨ ∃ nm, st.channel_name = some nm
        ∧ (scanLine writeOk keywords base_dir st line).writes
            = st.writes ++ [(build_channel_output_path base_dir nm
                (st.name_counts nm + 1), st.current_block ++ [line])] := by
  by_cases hp : "#EXTINF".toList.isPrefixOf line = true
  · left
    unfold scanLine
    rw [if_pos hp]
  · by_cases hr : (pstrip line).isEmpty = false
        ∧ "#".toList.isPrefixOf line = false
    · cases hcn : st.channel_name with
      | none =>
        left
        unfold scanLine
        rw [if_neg hp, if_pos hr, hcn]
      | some nm =>
        by_cases hnm : nm ≠ "unknown".toList
        · by_cases hw : writeOk (build_channel_output_path base_dir nm
              (st.name_counts nm + 1)) = true
          · right
            refine ⟨nm, rfl, ?_⟩
            unfold scanLine
            rw [if_neg hp, if_pos hr, hcn]
            dsimp only
            rw [if_pos hnm, ite_state_keyword_blocks]
            dsimp only
            rw [if_pos hw]
          · left
            unfold scanLine
            rw [if_neg hp, if_pos hr, hcn]
            dsimp only
            rw [if_pos hnm, ite_state_keyword_blocks]
            dsimp only
            rw [if_neg hw]
        · left
          unfold scanLine
          rw [if_neg hp, if_pos hr, hcn]
          dsimp only
          rw [if_neg hnm]
    · left
      unfold scanLine
      rw [if_neg hp, if_neg hr]

/- ### C9: only the first resource line completes an entry -/

/-- C9.  A metadata line restarts the block with exactly that line; any
completing resource line clears the pending name and block (so the next
non-comment, non-blank line before another metadata marker finds no
pending entry); with no pending entry such a line records no write and
no aggregate append, only a warning; and any new write closes the block
with exactly the completing line appended to the collected metadata. -/
theorem only_first_resource_completes (writeOk : List Char → Bool)
    (keywords : List (List Char)) (base_dir : List Char) (st : ScanState)
    (line : List Char) :
    ("#EXTINF".toList.isPrefixOf line = true →
      (scanLine writeOk keywords base_dir st line).current_block = [line])
    ∧ ((pstrip line).isEmpty = false → "#".toList.isPrefixOf line = false →
        (scanLine writeOk keywords base_dir st line).channel_name = none
        ∧ (scanLine writeOk keywords base_dir st line).current_block = [])
    ∧ (st.channel_name = none → (pstrip line).isEmpty = false →
        "#".toList.isPrefixOf line = false →
        (scanLine writeOk keywords base_dir st line).writes = st.writes
        ∧ (scanLine writeOk keywords base_dir st line).keyword_blocks
            = st.keyword_blocks
        ∧ (scanLine writeOk keywords base_dir st line).warnings
            = st.warnings ++ [skipUnknownWarning line])
    ∧ ((scanLine writeOk keywords base_dir st line).writes = st.writes
        ∨ ∃ nm, st.channel_name = some nm
            ∧ (scanLine writeOk keywords base_dir st line).writes
                = st.writes ++ [(build_channel_output_path base_dir nm
                    (st.name_counts nm + 1), st.current_block ++ [line])]) := by
  refine ⟨?_, ?_, ?_, scanLine_writes_shape writeOk keywords base_dir st line⟩
  · intro h1
    unfold scanLine
    rw [if_pos h1]
  · intro h2 h3
    unfold scanLine
    rw [if_neg (fun hx => Bool.false_ne_true ((extinf_not_hash h3) ▸ hx)),
      if_pos ⟨h2, h3⟩]
    exact ⟨rfl, rfl⟩
  · intro h0 h2 h3
    unfold scanLine
    rw [if_neg (fun hx => Bool.false_ne_true ((extinf_not_hash h3) ▸ hx)),
      if_pos ⟨h2, h3⟩, h0]
    exact ⟨rfl, rfl, rfl⟩

/-- State after one complete entry (metadata plus first resource line)
has been scanned: no pending entry remains. -/
def stC9 : ScanState :=
  scanLines allWritesOk [] "out".toList
    ["#EXTINF:-1,A".toList, "http://a/1".toList]

/-- Witness for C9: after an entry was completed, a second resource line
before any new metadata marker adds no write and only warns; and a
metadata line restarts the block with exactly itself. -/
theorem only_first_resource_completes_witness :
    (scanLine allWritesOk [] "out".toList stC9 "http://a/2".toList).writes
      = stC9.writes
    ∧ (scanLine allWritesOk [] "out".toList stC9 "http://a/2".toList).warnings
      = stC9.warnings ++ [skipUnknownWarning "http://a/2".toList]
    ∧ (scanLine allWritesOk [] "out".toList initState
        "#EXTINF:-1,A".toList).current_block = ["#EXTINF:-1,A".toList] :=
  ⟨((only_first_resource_completes allWritesOk [] "out".toList stC9
      "http://a/2".toList).2.2.1 (by decide) (by decide) (by decide)).1,
   ((only_first_resource_completes allWritesOk [] "out".toList stC9
      "http://a/2".toList).2.2.1 (by decide) (by decide) (by decide)).2.2,
   (only_first_resource_completes allWritesOk [] "out".toList initState
      "#EXTINF:-1,A".toList).1 (by decide)⟩

/- ### C10: a failed per-entry write does not undo the other effects -/

/-- The oracle under which every file write fails. -/
def noWritesOk : List Char → Bool := fun _ => false

/-- C10.  When the per-entry file write fails, the write is simply not
recorded and a warning naming the path is appended, but the occurrence
counter for the channel name has still been bumped, every matching
keyword aggregate still receives the block, and the pending entry is
cleared so scanning continues with the next line. -/
theorem write_failure_preserves_effects (writeOk : List Char → Bool)
    (keywords : List (List Char)) (base_dir : List Char) (st : ScanState)
    (line nm : List Char)
    (hname : st.channel_name = some nm) (hnm : nm ≠ "unknown".toList)
    (h2 : (pstrip line).isEmpty = false)
    (h3 : "#".toList.isPrefixOf line = false)
    (hnd : (keywords.map toLowerStr).Nodup)
    (hfail : writeOk (build_channel_output_path base_dir nm
        (st.name_counts nm + 1)) = false) :
    (scanLine writeOk keywords base_dir st line).writes = st.writes
    ∧ (scanLine writeOk keywords base_dir st line).name_counts nm
        = st.name_counts nm + 1
    ∧ (scanLine writeOk keywords base_dir st line).warnings
        = st.warnings ++ [writeFailWarning (build_channel_output_path base_dir
            nm (st.name_counts nm + 1))]
    ∧ (scanLine writeOk keywords base_dir st line).channel_name = none
    ∧ ∀ kw ∈ keywords,
        (scanLine writeOk keywords base_dir st line).keyword_blocks
            (toLowerStr kw)
          = if isSubstring (toLowerStr kw) (toLowerStr nm) = true
            then st.keyword_blocks (toLowerStr kw)
              ++ [st.current_block ++ [line]]
            else st.keyword_blocks (toLowerStr kw) := by
  have hfail' : ¬ writeOk (build_channel_output_path base_dir nm
      (st.name_counts nm + 1)) = true := by
    rw [hfail]; exact Bool.false_ne_true
  unfold scanLine
  rw [if_neg (fun hx => Bool.false_ne_true ((extinf_not_hash h3) ▸ hx)),
    if_pos ⟨h2, h3⟩, hname]
  dsimp only
  rw [if_pos hnm, ite_state_keyword_blocks]
  refine ⟨?_, ?_, ?_, rfl, ?_⟩
  · dsimp only
    rw [if_neg hfail']
  · dsimp only
    rw [if_pos rfl]
  · dsimp only
    rw [if_neg hfail']
  · intro kw hkw
    show (if (keywords.isEmpty : Bool) = true then st.keyword_blocks
      else collectKeywords (toLowerStr nm) (st.current_block ++ [line])
        keywords st.keyword_blocks) (toLowerStr kw) = _
    rw [if_neg (by rw [isEmpty_false_of_mem hkw]; exact Bool.false_ne_true)]
    exact collectKeywords_apply (toLowerStr nm) (st.current_block ++ [line])
      keywords st.keyword_blocks kw hkw hnd

/-- Witness for C10: with an oracle under which every write fails, the
pending Sports HD entry still bumps its counter and still lands in the
hd aggregate, while no write is recorded. -/
theorem write_failure_preserves_effects_witness :
    (scanLine noWritesOk ["HD".toList] "out".toList stW
        "http://s/1".toList).writes = stW.writes
    ∧ (scanLine noWritesOk ["HD".toList] "out".toList stW
        "http://s/1".toList).name_counts "Sports HD".toList
      = stW.name_counts "Sports HD".toList + 1
    ∧ (scanLine noWritesOk ["HD".toList] "out".toList stW
        "http://s/1".toList).keyword_blocks (toLowerStr "HD".toList)
      = if isSubstring (toLowerStr "HD".toList)
            (toLowerStr "Sports HD".toList) = true
        then stW.keyword_blocks (toLowerStr "HD".toList)
          ++ [stW.current_block ++ ["http://s/1".toList]]
        else stW.keyword_blocks (toLowerStr "HD".toList) :=
  ⟨(write_failure_preserves_effects noWritesOk ["HD".toList] "out".toList stW
      "http://s/1".toList "Sports HD".toList rfl (by decide) (by decide)
      (by decide) (by decide) rfl).1,
   (write_failure_preserves_effects noWritesOk ["HD".toList] "out".toList stW
      "http://s/1".toList "Sports HD".toList rfl (by decide) (by decide)
      (by decide) (by decide) rfl).2.1,
   (write_failure_preserves_effects noWritesOk ["HD".toList] "out".toList stW
      "http://s/1".toList "Sports HD".toList rfl (by decide) (by decide)
      (by decide) (by decide) rfl).2.2.2.2 "HD".toList (by decide)⟩

/- ### C7: aggregate flush -/

/-- C7.  The flush loop writes exactly one file per keyword whose
aggregate is non-empty, in keyword order, skipping keywords with empty
aggregates entirely; each file's content is the playlist header line
followed by the buffered blocks in match order, each block's lines
joined by newlines and followed by a trailing newline. -/
theorem flush_aggregates_spec (base_dir : List Char)
    (kbs : List Char → List (List (List Char))) :
    ∀ keywords : List (List Char),
      flushKeywords base_dir kbs keywords
        = (keywords.filter (fun kw => !(kbs (toLowerStr kw)).isEmpty)).map
            (fun kw => (build_keyword_output_path base_dir kw,
              aggregateContent (kbs (toLowerStr kw)))) := by
  intro keywords
  induction keywords with
  | nil => rfl
  | cons kw rest ih =>
    show (if ((kbs (toLowerStr kw)).isEmpty : Bool) = true
      then flushKeywords base_dir kbs rest
      else (build_keyword_output_path base_dir kw,
        aggregateContent (kbs (toLowerStr kw)))
          :: flushKeywords base_dir kbs rest) = _
    rw [List.filter_cons]
    cases h : (kbs (toLowerStr kw)).isEmpty with
    | true => simp [ih]
    | false => simp [ih]

/- ### C8: output layout -/

/-- The per-entry output path decomposed as base, the fixed iptv
directory, the folder for the channel, and the file name. -/
theorem build_channel_path_decomp (base_dir nm : List Char) (seq : Nat) :
    build_channel_output_path base_dir nm seq
      = base_dir ++ "/iptv/".toList
          ++ (truncate_with_ellipsis nm MAX_FOLDER_CHARS
            ++ '/' :: (truncate_with_ellipsis
                (if seq > 1 then nm ++ '_' :: natStr seq else nm)
                MAX_FILE_BASENAME_CHARS ++ ".m3u".toList)) := by
  unfold build_channel_output_path pathJoin
  simp only [List.append_assoc, List.cons_append, List.nil_append]
  rfl

/-- Every write performed by the scan lands under the fixed iptv
subdirectory of the base directory, whatever the keywords are. -/
theorem scanLines_writes_layout (writeOk : List Char → Bool)
    (keywords : List (List Char)) (base_dir : List Char) :
    ∀ (lines : List (List Char)) (st : ScanState),
      (∀ pc ∈ st.writes, ∃ rest, pc.1 = base_dir ++ "/iptv/".toList ++ rest) →
      ∀ pc ∈ (lines.foldl (scanLine writeOk keywords base_dir) st).writes,
        ∃ rest, pc.1 = base_dir ++ "/iptv/".toList ++ rest := by
  intro lines
  induction lines with
  | nil => intro st h; exact h
  | cons l ls ih =>
    intro st h
    rw [List.foldl_cons]
    apply ih
    intro pc hpc
    rcases scanLine_writes_shape writeOk keywords base_dir st l
      with he | ⟨nm, _, he⟩
    · rw [he] at hpc
      exact h pc hpc
    · rw [he] at hpc
      rcases List.mem_append.mp hpc with hpc' | hpc'
      · exact h pc hpc'
      · rw [List.mem_singleton] at hpc'
        subst hpc'
        exact ⟨_, build_channel_path_decomp base_dir nm (st.name_counts nm + 1)⟩

/-- C8 (amended).  Per-entry files always go under base/iptv/folder,
whether or not any keyword is configured; keyword aggregate files go
directly under the base directory. -/
theorem output_layout (writeOk : List Char → Bool) (keywords : List (List Char))
    (base_dir : List Char) (lines : List (List Char)) :
    (∀ pc ∈ (scanLines writeOk keywords base_dir lines).writes,
      ∃ rest, pc.1 = base_dir ++ "/iptv/".toList ++ rest)
    ∧ ∀ kw : List Char, build_keyword_output_path base_dir kw
        = base_dir ++ '/' :: (truncate_with_ellipsis (safe_name kw)
            MAX_FILE_BASENAME_CHARS ++ ".m3u".toList) := by
  constructor
  · exact scanLines_writes_layout writeOk keywords base_dir lines initState
      (fun pc hpc => absurd hpc (List.not_mem_nil pc))
  · intro kw
    rfl

/-- Witness for C8 (amended): the first write of the duplicate-name
scenario indeed sits under the iptv subdirectory of the base. -/
theorem output_layout_witness :
    ∃ rest, ("out/iptv/Channel One/Channel One.m3u".toList,
        ["#EXTINF:-1,Channel One".toList, "http://x/1".toList]).1
      = "out".toList ++ "/iptv/".toList ++ rest :=
  (output_layout allWritesOk [] "out".toList linesC3).1
    ("out/iptv/Channel One/Channel One.m3u".toList,
      ["#EXTINF:-1,Channel One".toList, "http://x/1".toList]) (by decide)

/-- Counterexample for C8 as stated: with no keyword supplied
(aggregation not enabled), the per-entry files are still written under
the fixed iptv subdirectory, not directly under the base directory as
the claim's flat layout demands. -/
theorem flat_layout_counterexample :
    (scanLines allWritesOk [] "out".toList linesC3).writes.map Prod.fst
      = ["out/iptv/Channel One/Channel One.m3u".toList,
         "out/iptv/Channel One/Channel One_2.m3u".toList]
    ∧ "out/iptv/Channel One/Channel One.m3u".toList
        ≠ "out/Channel One/Channel One.m3u".toList := by
  decide

end M3U
